import Mathlib

/-!
Shallow embedding of the `DigitalEvidence.vy` Vyper contract
(contracts/DigitalEvidence.vy): role-based access control, evidence
registration with duplicate-digest rejection, custody-chain tracking,
the status finite-state machine, and bounded file attachments.

Principals (EVM addresses) are modelled as `Nat`, with `0` standing for
the null/sentinel address `empty(address)`.  32-byte digests (`bytes32`)
are modelled as `Nat`, with `0` standing for `empty(bytes32)`.  Vyper's
revert semantics (any failed `assert` rolls back every storage write of
the call) is modelled by each external function returning
`Except Err State`: an error carries no successor state, and `exec`
keeps the pre-state on failure.
-/

namespace DigitalEvidence

/-- Principals (EVM addresses); `0` is the null/sentinel address. -/
abbrev Addr := Nat

/-- Maximum value of a `uint256`. -/
def UINT256_MAX : Nat := 2 ^ 256 - 1

/-- Evidence lifecycle status (`enum Status` in the contract). -/
inductive Status where
  | Collected
  | InAnalysis
  | Archived
  | Invalidated
deriving DecidableEq, Repr

/-- Role bit for ADMIN (`ROLE_ADMIN: constant(uint256) = 1`). -/
def ROLE_ADMIN : Nat := 1

/-- Role bit for POLICE (`ROLE_POLICE: constant(uint256) = 2`). -/
def ROLE_POLICE : Nat := 2

/-- Role bit for LAB (`ROLE_LAB: constant(uint256) = 4`). -/
def ROLE_LAB : Nat := 4

/-- Role bit for JUDGE (`ROLE_JUDGE: constant(uint256) = 8`). -/
def ROLE_JUDGE : Nat := 8

/-- The `Evidence` struct of the contract. -/
structure Evidence where
  id : Nat
  file_hash : Nat
  ipfs_cid : String
  description : String
  case_id : String
  creator : Addr
  current_custodian : Addr
  created_at : Nat
  status : Status
  exists_ : Bool
deriving DecidableEq, Repr

/-- The `CustodyEvent` struct of the contract. -/
structure CustodyEvent where
  from_address : Addr
  to_address : Addr
  timestamp : Nat
  reason : String
deriving DecidableEq, Repr

/-- The `EvidenceFile` struct of the contract. -/
structure EvidenceFile where
  file_hash : Nat
  ipfs_cid : String
  file_type : String
  added_by : Addr
  added_at : Nat
deriving DecidableEq, Repr

/-- Default value a Vyper `HashMap[uint256, Evidence]` yields for an
absent key: all fields zeroed, `exists` false. -/
def emptyEvidence : Evidence :=
  { id := 0, file_hash := 0, ipfs_cid := "", description := "", case_id := ""
    creator := 0, current_custodian := 0, created_at := 0
    status := Status.Collected, exists_ := false }

/-- The contract's storage: `admin`, `evidence_counter`, `evidences`,
`custody_history`, `evidence_files`, `roles`, `registered_hashes`.
Vyper `HashMap`s are total functions with zero-value defaults. -/
structure State where
  admin : Addr
  evidence_counter : Nat
  evidences : Nat → Evidence
  custody_history : Nat → List CustodyEvent
  evidence_files : Nat → List EvidenceFile
  roles : Addr → Nat
  registered_hashes : Nat → Bool

/-- Point update of a `Nat`-keyed map. -/
def upd {α : Type} (f : Nat → α) (k : Nat) (v : α) : Nat → α :=
  fun i => if i = k then v else f i

/-- The constructor (`__init__`): deployer becomes `admin` and receives
all four role bits. -/
def initState (deployer : Addr) : State :=
  { admin := deployer
    evidence_counter := 0
    evidences := fun _ => emptyEvidence
    custody_history := fun _ => []
    evidence_files := fun _ => []
    roles := fun a => if a = deployer then
        ROLE_ADMIN ||| ROLE_POLICE ||| ROLE_LAB ||| ROLE_JUDGE else 0
    registered_hashes := fun _ => false }

/-- Typed failures, refining the contract's `assert`/`raise` reverts into
the specification's error taxonomy.  `OverflowError` is the Vyper
checked-arithmetic revert on `evidence_counter += 1`; `CapacityError` is
the Vyper revert on appending to a full `DynArray`. -/
inductive Err where
  | AuthorizationError
  | ValidationError
  | NotFoundError
  | DuplicateError
  | InvalidTransitionError
  | CapacityError
  | OverflowError
deriving DecidableEq, Repr

/-- Result discriminator: did the call succeed? -/
def okB : Except Err State → Bool
  | .ok _ => true
  | .error _ => false

/-- The error of a failed call, `none` on success. -/
def errOf : Except Err State → Option Err
  | .ok _ => none
  | .error e => some e

/-- The `has_role` view function: `(self.roles[account] & role) != 0`. -/
def has_role (s : State) (account : Addr) (role : Nat) : Bool :=
  s.roles account &&& role != 0

/-- Role-argument validity: `role in [ROLE_ADMIN, ROLE_POLICE, ROLE_LAB,
ROLE_JUDGE]`. -/
def validRole (role : Nat) : Bool :=
  role == ROLE_ADMIN || role == ROLE_POLICE || role == ROLE_LAB || role == ROLE_JUDGE

/-- `grant_role(account, role)`: `_only_admin` ("Only admin" →
AuthorizationError), `_validate_address` ("Invalid address" →
ValidationError), role-membership check ("Invalid role" →
ValidationError); effect `self.roles[account] |= role`. -/
def grant_role (s : State) (caller account : Addr) (role : Nat) : Except Err State :=
  if caller ≠ s.admin then .error .AuthorizationError
  else if account = 0 then .error .ValidationError
  else if ¬ validRole role then .error .ValidationError
  else .ok { s with roles := upd s.roles account (s.roles account ||| role) }

/-- `revoke_role(account, role)`: same guards as `grant_role`; effect
`self.roles[account] &= ~role`, with `~role` the 256-bit complement. -/
def revoke_role (s : State) (caller account : Addr) (role : Nat) : Except Err State :=
  if caller ≠ s.admin then .error .AuthorizationError
  else if account = 0 then .error .ValidationError
  else if ¬ validRole role then .error .ValidationError
  else .ok { s with roles := upd s.roles account (s.roles account &&& (UINT256_MAX ^^^ role)) }

/-- `register_evidence(file_hash, ipfs_cid, description, case_id)`:
guards in source order — `_only_role(ROLE_POLICE)`, `_validate_hash`,
`_validate_string(description)`, `_validate_case_id`, non-empty
`ipfs_cid`, duplicate-digest check ("Evidence already registered" →
DuplicateError), then the checked `evidence_counter += 1` and the
`DynArray` append of the initial custody record. -/
def register_evidence (s : State) (caller : Addr) (now : Nat)
    (file_hash : Nat) (ipfs_cid description case_id : String) : Except Err State :=
  if s.roles caller &&& ROLE_POLICE = 0 then .error .AuthorizationError
  else if file_hash = 0 then .error .ValidationError
  else if description = "" then .error .ValidationError
  else if case_id = "" then .error .ValidationError
  else if ipfs_cid = "" then .error .ValidationError
  else if s.registered_hashes file_hash then .error .DuplicateError
  else if s.evidence_counter = UINT256_MAX then .error .OverflowError
  else if 1000 ≤ (s.custody_history (s.evidence_counter + 1)).length then .error .CapacityError
  else
    .ok { s with
      evidence_counter := s.evidence_counter + 1
      evidences := upd s.evidences (s.evidence_counter + 1)
        { id := s.evidence_counter + 1, file_hash := file_hash, ipfs_cid := ipfs_cid
          description := description, case_id := case_id
          creator := caller, current_custodian := caller, created_at := now
          status := Status.Collected, exists_ := true }
      registered_hashes := upd s.registered_hashes file_hash true
      custody_history := upd s.custody_history (s.evidence_counter + 1)
        (s.custody_history (s.evidence_counter + 1) ++
          [{ from_address := 0, to_address := caller, timestamp := now
             reason := "Initial registration" }]) }

/-- `transfer_custody(evidence_id, new_custodian, reason)`: guards in
source order — `_evidence_exists` ("Evidence does not exist" →
NotFoundError), `_only_custodian` ("Not custodian" →
AuthorizationError), `_validate_address(new_custodian)`, non-empty
reason, `roles[new_custodian] != 0`, no self-transfer, then the
`DynArray[.., 1000]` append and the custodian update. -/
def transfer_custody (s : State) (caller : Addr) (now : Nat)
    (evidence_id : Nat) (new_custodian : Addr) (reason : String) : Except Err State :=
  if (s.evidences evidence_id).exists_ = false then .error .NotFoundError
  else if (s.evidences evidence_id).current_custodian ≠ caller then .error .AuthorizationError
  else if new_custodian = 0 then .error .ValidationError
  else if reason = "" then .error .ValidationError
  else if s.roles new_custodian = 0 then .error .ValidationError
  else if new_custodian = caller then .error .ValidationError
  else if 1000 ≤ (s.custody_history evidence_id).length then .error .CapacityError
  else
    .ok { s with
      custody_history := upd s.custody_history evidence_id
        (s.custody_history evidence_id ++
          [{ from_address := (s.evidences evidence_id).current_custodian
             to_address := new_custodian, timestamp := now, reason := reason }])
      evidences := upd s.evidences evidence_id
        { s.evidences evidence_id with current_custodian := new_custodian } }

/-- The FSM transition table of `set_status`'s if/elif chain:
Collected → InAnalysis/Invalidated, InAnalysis → Archived/Invalidated,
Archived and Invalidated terminal. -/
def allowed_transition : Status → Status → Bool
  | .Collected, .InAnalysis => true
  | .Collected, .Invalidated => true
  | .InAnalysis, .Archived => true
  | .InAnalysis, .Invalidated => true
  | _, _ => false

/-- `set_status(evidence_id, new_status)`: guards in source order —
`_evidence_exists`, `_only_role(ROLE_LAB | ROLE_JUDGE)`, "Status
unchanged" (→ ValidationError), FSM table (invalid transition or any
attempt to leave a terminal state → InvalidTransitionError). -/
def set_status (s : State) (caller : Addr)
    (evidence_id : Nat) (new_status : Status) : Except Err State :=
  if (s.evidences evidence_id).exists_ = false then .error .NotFoundError
  else if s.roles caller &&& (ROLE_LAB ||| ROLE_JUDGE) = 0 then .error .AuthorizationError
  else if new_status = (s.evidences evidence_id).status then .error .ValidationError
  else if allowed_transition (s.evidences evidence_id).status new_status = false then
    .error .InvalidTransitionError
  else
    .ok { s with
      evidences := upd s.evidences evidence_id
        { s.evidences evidence_id with status := new_status } }

/-- `add_file_to_evidence(evidence_id, file_hash, ipfs_cid, file_type)`:
guards in source order — `_evidence_exists`, `_only_role(ROLE_LAB)`,
`_validate_hash`, non-empty `ipfs_cid`, non-empty `file_type`, then the
`DynArray[.., 100]` append. -/
def add_file_to_evidence (s : State) (caller : Addr) (now : Nat)
    (evidence_id : Nat) (file_hash : Nat) (ipfs_cid file_type : String) : Except Err State :=
  if (s.evidences evidence_id).exists_ = false then .error .NotFoundError
  else if s.roles caller &&& ROLE_LAB = 0 then .error .AuthorizationError
  else if file_hash = 0 then .error .ValidationError
  else if ipfs_cid = "" then .error .ValidationError
  else if file_type = "" then .error .ValidationError
  else if 100 ≤ (s.evidence_files evidence_id).length then .error .CapacityError
  else
    .ok { s with
      evidence_files := upd s.evidence_files evidence_id
        (s.evidence_files evidence_id ++
          [{ file_hash := file_hash, ipfs_cid := ipfs_cid, file_type := file_type
             added_by := caller, added_at := now }]) }

/-- One external mutating call, with its caller and arguments. -/
inductive Op where
  | register (caller : Addr) (file_hash : Nat) (ipfs_cid description case_id : String)
  | transfer (caller : Addr) (evidence_id : Nat) (new_custodian : Addr) (reason : String)
  | setStat (caller : Addr) (evidence_id : Nat) (new_status : Status)
  | addFile (caller : Addr) (evidence_id : Nat) (file_hash : Nat) (ipfs_cid file_type : String)
  | grant (caller account : Addr) (role : Nat)
  | revoke (caller account : Addr) (role : Nat)

/-- Dispatch an operation at block time `now`. -/
def step (s : State) (o : Op) (now : Nat) : Except Err State :=
  match o with
  | .register caller fh cid d ca => register_evidence s caller now fh cid d ca
  | .transfer caller eid nc r => transfer_custody s caller now eid nc r
  | .setStat caller eid ns => set_status s caller eid ns
  | .addFile caller eid fh cid ft => add_file_to_evidence s caller now eid fh cid ft
  | .grant caller account role => grant_role s caller account role
  | .revoke caller account role => revoke_role s caller account role

/-- Run an operation with revert semantics: a failed call leaves the
storage exactly as it was. -/
def exec (s : State) (o : Op) (now : Nat) : State :=
  match step s o now with
  | .ok s' => s'
  | .error _ => s

/-- Run a sequence of timed operations. -/
def execAll (s : State) : List (Op × Nat) → State
  | [] => s
  | (o, t) :: rest => execAll (exec s o t) rest

/-- States reachable from deployment by any sequence of calls. -/
inductive Reachable : State → Prop where
  | init (deployer : Addr) : Reachable (initState deployer)
  | step {s : State} (o : Op) (now : Nat) : Reachable s → Reachable (exec s o now)

/-! ### Custody-chain well-formedness -/

/-- Sentinel from-principal of the first custody entry (`0` on `[]`). -/
def headFrom : List CustodyEvent → Addr
  | [] => 0
  | e :: _ => e.from_address

/-- To-principal of the last custody entry (`0` on `[]`). -/
def lastTo : List CustodyEvent → Addr
  | [] => 0
  | [e] => e.to_address
  | _ :: e :: rest => lastTo (e :: rest)

/-- Each entry's to-principal equals the next entry's from-principal. -/
def linkedB : List CustodyEvent → Bool
  | [] => true
  | [_] => true
  | a :: b :: rest => (a.to_address == b.from_address) && linkedB (b :: rest)

/-- Well-formed custody history for an evidence whose current custodian
is `cust`: non-empty, sentinel first entry, hand-to-hand linked, and the
last entry hands to `cust`. -/
def chainOk (l : List CustodyEvent) (cust : Addr) : Prop :=
  l ≠ [] ∧ headFrom l = 0 ∧ linkedB l = true ∧ lastTo l = cust

/-- The storage produced by a successful `register_evidence` call. -/
def regSucc (s : State) (caller : Addr) (now : Nat)
    (file_hash : Nat) (ipfs_cid description case_id : String) : State :=
  { s with
    evidence_counter := s.evidence_counter + 1
    evidences := upd s.evidences (s.evidence_counter + 1)
      { id := s.evidence_counter + 1, file_hash := file_hash, ipfs_cid := ipfs_cid
        description := description, case_id := case_id
        creator := caller, current_custodian := caller, created_at := now
        status := Status.Collected, exists_ := true }
    registered_hashes := upd s.registered_hashes file_hash true
    custody_history := upd s.custody_history (s.evidence_counter + 1)
      (s.custody_history (s.evidence_counter + 1) ++
        [{ from_address := 0, to_address := caller, timestamp := now
           reason := "Initial registration" }]) }

/-- The storage produced by a successful `transfer_custody` call. -/
def transferSucc (s : State) (now : Nat)
    (evidence_id : Nat) (new_custodian : Addr) (reason : String) : State :=
  { s with
    custody_history := upd s.custody_history evidence_id
      (s.custody_history evidence_id ++
        [{ from_address := (s.evidences evidence_id).current_custodian
           to_address := new_custodian, timestamp := now, reason := reason }])
    evidences := upd s.evidences evidence_id
      { s.evidences evidence_id with current_custodian := new_custodian } }

/-- The storage produced by a successful `add_file_to_evidence` call. -/
def addFileSucc (s : State) (caller : Addr) (now : Nat)
    (evidence_id : Nat) (file_hash : Nat) (ipfs_cid file_type : String) : State :=
  { s with
    evidence_files := upd s.evidence_files evidence_id
      (s.evidence_files evidence_id ++
        [{ file_hash := file_hash, ipfs_cid := ipfs_cid, file_type := file_type
           added_by := caller, added_at := now }]) }

/-- State invariant maintained by every call: the counter stays a
`uint256`; ids above the counter are unallocated; every existing
evidence has a well-formed custody chain ending at its current
custodian; both `DynArray`s respect their declared capacities. -/
structure Inv (s : State) : Prop where
  counter_le : s.evidence_counter ≤ UINT256_MAX
  fresh_ev : ∀ i, s.evidence_counter < i → (s.evidences i).exists_ = false
  fresh_hist : ∀ i, s.evidence_counter < i → s.custody_history i = []
  chain : ∀ i, (s.evidences i).exists_ = true →
    chainOk (s.custody_history i) (s.evidences i).current_custodian
  hist_cap : ∀ i, (s.custody_history i).length ≤ 1000
  files_cap : ∀ i, (s.evidence_files i).length ≤ 100

/-- Equality of the registration-time (frozen) fields of two evidence
records: `id`, content digest, locator, description, case id, creator,
creation timestamp. -/
def frozenEq (a b : Evidence) : Prop :=
  a.id = b.id ∧ a.file_hash = b.file_hash ∧ a.ipfs_cid = b.ipfs_cid ∧
  a.description = b.description ∧ a.case_id = b.case_id ∧
  a.creator = b.creator ∧ a.created_at = b.created_at

/-- Non-success characterization used for atomicity: the exact
precondition under which each operation commits. -/
def Preconds (s : State) (o : Op) : Prop :=
  match o with
  | .register caller fh cid d ca =>
      s.roles caller &&& ROLE_POLICE ≠ 0 ∧ fh ≠ 0 ∧ d ≠ "" ∧ ca ≠ "" ∧ cid ≠ "" ∧
      s.registered_hashes fh = false ∧ s.evidence_counter ≠ UINT256_MAX ∧
      (s.custody_history (s.evidence_counter + 1)).length < 1000
  | .transfer caller eid nc r =>
      (s.evidences eid).exists_ = true ∧ (s.evidences eid).current_custodian = caller ∧
      nc ≠ 0 ∧ r ≠ "" ∧ s.roles nc ≠ 0 ∧ nc ≠ caller ∧
      (s.custody_history eid).length < 1000
  | .setStat caller eid ns =>
      (s.evidences eid).exists_ = true ∧
      s.roles caller &&& (ROLE_LAB ||| ROLE_JUDGE) ≠ 0 ∧
      ns ≠ (s.evidences eid).status ∧
      allowed_transition (s.evidences eid).status ns = true
  | .addFile caller eid fh cid ft =>
      (s.evidences eid).exists_ = true ∧ s.roles caller &&& ROLE_LAB ≠ 0 ∧
      fh ≠ 0 ∧ cid ≠ "" ∧ ft ≠ "" ∧ (s.evidence_files eid).length < 100
  | .grant caller account role => caller = s.admin ∧ account ≠ 0 ∧ validRole role = true
  | .revoke caller account role => caller = s.admin ∧ account ≠ 0 ∧ validRole role = true

/-- The state `s`, with the status of evidence `eid` overridden. -/
def withStatus (s : State) (eid : Nat) (st : Status) : State :=
  { s with evidences := upd s.evidences eid { s.evidences eid with status := st } }

/-- Deployment by principal 1. -/
def s0 : State := initState 1

/-- `s0` after principal 1 registers digest 5. -/
def s1 : State := exec s0 (Op.register 1 5 "cid" "desc" "case") 0

/-- `s1` after the admin grants principal 2 the ADMIN role bit. -/
def s2 : State := exec s1 (Op.grant 1 2 ROLE_ADMIN) 1

/-- Evidence record number 1 of the hand-crafted full-history state. -/
def fullEv : Evidence :=
  { id := 1, file_hash := 5, ipfs_cid := "cid", description := "desc", case_id := "case"
    creator := 1, current_custodian := 1, created_at := 0
    status := Status.Collected, exists_ := true }

/-- A storage state whose evidence 1 has a custody history already at the
`DynArray[CustodyEvent, 1000]` capacity. -/
def fullS : State :=
  { admin := 1
    evidence_counter := 1
    evidences := upd (fun _ => emptyEvidence) 1 fullEv
    custody_history := upd (fun _ => []) 1
      (List.replicate 1000 (⟨0, 1, 0, "x"⟩ : CustodyEvent))
    evidence_files := fun _ => []
    roles := fun a => if a = 1 then 15 else if a = 2 then ROLE_LAB else 0
    registered_hashes := fun h => h == 5 }

@[simp] theorem upd_apply {α : Type} (f : Nat → α) (k : Nat) (v : α) (i : Nat) :
    upd f k v i = if i = k then v else f i := rfl


/-! ### Basic lemmas -/

theorem lastTo_append (l : List CustodyEvent) (e : CustodyEvent) :
    lastTo (l ++ [e]) = e.to_address := by
  induction l with
  | nil => rfl
  | cons a t ih =>
    cases t with
    | nil => rfl
    | cons b t2 => simpa [lastTo] using ih

theorem headFrom_append {l : List CustodyEvent} (h : l ≠ []) (e : CustodyEvent) :
    headFrom (l ++ [e]) = headFrom l := by
  cases l with
  | nil => exact absurd rfl h
  | cons a t => rfl

theorem linkedB_append {l : List CustodyEvent} {e : CustodyEvent}
    (h : linkedB l = true) (hl : lastTo l = e.from_address) :
    linkedB (l ++ [e]) = true := by
  induction l with
  | nil => rfl
  | cons a t ih =>
    cases t with
    | nil =>
      simp only [lastTo] at hl
      simp [linkedB, hl]
    | cons b t2 =>
      simp only [linkedB, Bool.and_eq_true] at h
      simp only [lastTo] at hl
      simpa [linkedB, h.1] using ih h.2 hl

theorem chainOk_append {l : List CustodyEvent} {cust : Addr} {e : CustodyEvent}
    (h : chainOk l cust) (hfrom : e.from_address = cust) :
    chainOk (l ++ [e]) e.to_address := by
  obtain ⟨hne, hhead, hlink, hlast⟩ := h
  refine ⟨by simp, ?_, ?_, lastTo_append l e⟩
  · rw [headFrom_append hne e]; exact hhead
  · exact linkedB_append hlink (by rw [hlast, hfrom])

/-! ### Success characterizations of the external functions -/

theorem grant_role_ok_iff (s : State) (caller account : Addr) (role : Nat) :
    okB (grant_role s caller account role) = true ↔
      caller = s.admin ∧ account ≠ 0 ∧ validRole role = true := by
  unfold grant_role
  split_ifs with h1 h2 h3 <;> simp_all [okB]

theorem grant_role_ok_elim {s s' : State} {caller account : Addr} {role : Nat}
    (h : grant_role s caller account role = .ok s') :
    caller = s.admin ∧ account ≠ 0 ∧ validRole role = true ∧
      s' = { s with roles := upd s.roles account (s.roles account ||| role) } := by
  unfold grant_role at h
  split_ifs at h with h1 h2 h3
  injection h with h4
  subst h4
  exact ⟨not_not.mp h1, h2, h3, rfl⟩

theorem revoke_role_ok_iff (s : State) (caller account : Addr) (role : Nat) :
    okB (revoke_role s caller account role) = true ↔
      caller = s.admin ∧ account ≠ 0 ∧ validRole role = true := by
  unfold revoke_role
  split_ifs with h1 h2 h3 <;> simp_all [okB]

theorem revoke_role_ok_elim {s s' : State} {caller account : Addr} {role : Nat}
    (h : revoke_role s caller account role = .ok s') :
    caller = s.admin ∧ account ≠ 0 ∧ validRole role = true ∧
      s' = { s with roles := upd s.roles account (s.roles account &&& (UINT256_MAX ^^^ role)) } := by
  unfold revoke_role at h
  split_ifs at h with h1 h2 h3
  injection h with h4
  subst h4
  exact ⟨not_not.mp h1, h2, h3, rfl⟩

theorem register_ok_iff (s : State) (caller : Addr) (now : Nat)
    (fh : Nat) (cid d ca : String) :
    okB (register_evidence s caller now fh cid d ca) = true ↔
      s.roles caller &&& ROLE_POLICE ≠ 0 ∧ fh ≠ 0 ∧ d ≠ "" ∧ ca ≠ "" ∧ cid ≠ "" ∧
      s.registered_hashes fh = false ∧ s.evidence_counter ≠ UINT256_MAX ∧
      (s.custody_history (s.evidence_counter + 1)).length < 1000 := by
  unfold register_evidence
  split_ifs with h1 h2 h3 h4 h5 h6 h7 h8 <;> simp_all [okB]

theorem register_ok_elim {s s' : State} {caller : Addr} {now : Nat}
    {fh : Nat} {cid d ca : String}
    (h : register_evidence s caller now fh cid d ca = .ok s') :
    s.roles caller &&& ROLE_POLICE ≠ 0 ∧ fh ≠ 0 ∧ d ≠ "" ∧ ca ≠ "" ∧ cid ≠ "" ∧
      s.registered_hashes fh = false ∧ s.evidence_counter ≠ UINT256_MAX ∧
      (s.custody_history (s.evidence_counter + 1)).length < 1000 ∧
      s' = regSucc s caller now fh cid d ca := by
  unfold register_evidence at h
  split_ifs at h with h1 h2 h3 h4 h5 h6 h7 h8
  injection h with h9
  subst h9
  exact ⟨h1, h2, h3, h4, h5, by simpa using h6, h7, by omega, rfl⟩

theorem transfer_ok_iff (s : State) (caller : Addr) (now : Nat)
    (eid : Nat) (nc : Addr) (r : String) :
    okB (transfer_custody s caller now eid nc r) = true ↔
      (s.evidences eid).exists_ = true ∧
      (s.evidences eid).current_custodian = caller ∧
      nc ≠ 0 ∧ r ≠ "" ∧ s.roles nc ≠ 0 ∧ nc ≠ caller ∧
      (s.custody_history eid).length < 1000 := by
  unfold transfer_custody
  split_ifs with h1 h2 h3 h4 h5 h6 h7 <;> simp_all [okB]

theorem transfer_ok_elim {s s' : State} {caller : Addr} {now : Nat}
    {eid : Nat} {nc : Addr} {r : String}
    (h : transfer_custody s caller now eid nc r = .ok s') :
    (s.evidences eid).exists_ = true ∧
      (s.evidences eid).current_custodian = caller ∧
      nc ≠ 0 ∧ r ≠ "" ∧ s.roles nc ≠ 0 ∧ nc ≠ caller ∧
      (s.custody_history eid).length < 1000 ∧
      s' = transferSucc s now eid nc r := by
  unfold transfer_custody at h
  split_ifs at h with h1 h2 h3 h4 h5 h6 h7
  injection h with h8
  subst h8
  exact ⟨by simpa using h1, not_not.mp h2, h3, h4, h5, h6, by omega, rfl⟩

theorem set_status_ok_iff (s : State) (caller : Addr) (eid : Nat) (ns : Status) :
    okB (set_status s caller eid ns) = true ↔
      (s.evidences eid).exists_ = true ∧
      s.roles caller &&& (ROLE_LAB ||| ROLE_JUDGE) ≠ 0 ∧
      ns ≠ (s.evidences eid).status ∧
      allowed_transition (s.evidences eid).status ns = true := by
  unfold set_status
  split_ifs with h1 h2 h3 h4 <;> simp_all [okB]

theorem set_status_ok_elim {s s' : State} {caller : Addr} {eid : Nat} {ns : Status}
    (h : set_status s caller eid ns = .ok s') :
    (s.evidences eid).exists_ = true ∧
      s.roles caller &&& (ROLE_LAB ||| ROLE_JUDGE) ≠ 0 ∧
      ns ≠ (s.evidences eid).status ∧
      allowed_transition (s.evidences eid).status ns = true ∧
      s' = { s with
        evidences := upd s.evidences eid { s.evidences eid with status := ns } } := by
  unfold set_status at h
  split_ifs at h with h1 h2 h3 h4
  injection h with h5
  subst h5
  exact ⟨by simpa using h1, h2, h3, by simpa using h4, rfl⟩

theorem add_file_ok_iff (s : State) (caller : Addr) (now : Nat)
    (eid : Nat) (fh : Nat) (cid ft : String) :
    okB (add_file_to_evidence s caller now eid fh cid ft) = true ↔
      (s.evidences eid).exists_ = true ∧
      s.roles caller &&& ROLE_LAB ≠ 0 ∧ fh ≠ 0 ∧ cid ≠ "" ∧ ft ≠ "" ∧
      (s.evidence_files eid).length < 100 := by
  unfold add_file_to_evidence
  split_ifs with h1 h2 h3 h4 h5 h6 <;> simp_all [okB]

theorem add_file_ok_elim {s s' : State} {caller : Addr} {now : Nat}
    {eid : Nat} {fh : Nat} {cid ft : String}
    (h : add_file_to_evidence s caller now eid fh cid ft = .ok s') :
    (s.evidences eid).exists_ = true ∧
      s.roles caller &&& ROLE_LAB ≠ 0 ∧ fh ≠ 0 ∧ cid ≠ "" ∧ ft ≠ "" ∧
      (s.evidence_files eid).length < 100 ∧
      s' = addFileSucc s caller now eid fh cid ft := by
  unfold add_file_to_evidence at h
  split_ifs at h with h1 h2 h3 h4 h5 h6
  injection h with h7
  subst h7
  exact ⟨by simpa using h1, h2, h3, h4, h5, by omega, rfl⟩

/-! ### The global invariant -/

theorem inv_init (deployer : Addr) : Inv (initState deployer) := by
  constructor
  · simp [initState, UINT256_MAX]
  · intro i _; rfl
  · intro i _; rfl
  · intro i hi; simp [initState, emptyEvidence] at hi
  · intro i; simp [initState]
  · intro i; simp [initState]

theorem existing_le_counter {s : State} (hI : Inv s) {i : Nat}
    (hex : (s.evidences i).exists_ = true) : i ≤ s.evidence_counter := by
  by_contra hgt
  have := hI.fresh_ev i (by omega)
  simp [this] at hex

theorem inv_grant {s s' : State} {caller account : Addr} {role : Nat}
    (hI : Inv s) (h : grant_role s caller account role = .ok s') : Inv s' := by
  obtain ⟨-, -, -, hs⟩ := grant_role_ok_elim h
  subst hs
  exact ⟨hI.counter_le, hI.fresh_ev, hI.fresh_hist, hI.chain, hI.hist_cap, hI.files_cap⟩

theorem inv_revoke {s s' : State} {caller account : Addr} {role : Nat}
    (hI : Inv s) (h : revoke_role s caller account role = .ok s') : Inv s' := by
  obtain ⟨-, -, -, hs⟩ := revoke_role_ok_elim h
  subst hs
  exact ⟨hI.counter_le, hI.fresh_ev, hI.fresh_hist, hI.chain, hI.hist_cap, hI.files_cap⟩

theorem inv_setStat {s s' : State} {caller : Addr} {eid : Nat} {ns : Status}
    (hI : Inv s) (h : set_status s caller eid ns = .ok s') : Inv s' := by
  obtain ⟨hex, -, -, -, hs⟩ := set_status_ok_elim h
  subst hs
  have heid : eid ≤ s.evidence_counter := existing_le_counter hI hex
  constructor
  · exact hI.counter_le
  · intro i hi
    have hi' : s.evidence_counter < i := hi
    by_cases hie : i = eid
    · omega
    · simpa [upd_apply, hie] using hI.fresh_ev i hi'
  · exact hI.fresh_hist
  · intro i hex2
    by_cases hie : i = eid
    · subst hie
      simpa [upd_apply] using hI.chain i hex
    · have hex3 : (s.evidences i).exists_ = true := by
        simpa [upd_apply, hie] using hex2
      simpa [upd_apply, hie] using hI.chain i hex3
  · exact hI.hist_cap
  · exact hI.files_cap

theorem inv_addFile {s s' : State} {caller : Addr} {now : Nat}
    {eid : Nat} {fh : Nat} {cid ft : String}
    (hI : Inv s) (h : add_file_to_evidence s caller now eid fh cid ft = .ok s') : Inv s' := by
  obtain ⟨-, -, -, -, -, hlen, hs⟩ := add_file_ok_elim h
  subst hs
  refine ⟨hI.counter_le, hI.fresh_ev, hI.fresh_hist, hI.chain, hI.hist_cap, ?_⟩
  intro i
  by_cases hie : i = eid
  · subst hie
    simp [addFileSucc, upd_apply, List.length_append]
    omega
  · simpa [addFileSucc, upd_apply, hie] using hI.files_cap i

theorem inv_transfer {s s' : State} {caller : Addr} {now : Nat}
    {eid : Nat} {nc : Addr} {r : String}
    (hI : Inv s) (h : transfer_custody s caller now eid nc r = .ok s') : Inv s' := by
  obtain ⟨hex, hcust, -, -, -, -, hlen, hs⟩ := transfer_ok_elim h
  subst hs
  have heid : eid ≤ s.evidence_counter := existing_le_counter hI hex
  constructor
  · exact hI.counter_le
  · intro i hi
    have hi' : s.evidence_counter < i := hi
    by_cases hie : i = eid
    · omega
    · simpa [transferSucc, upd_apply, hie] using hI.fresh_ev i hi'
  · intro i hi
    have hi' : s.evidence_counter < i := hi
    by_cases hie : i = eid
    · omega
    · simpa [transferSucc, upd_apply, hie] using hI.fresh_hist i hi'
  · intro i hex2
    by_cases hie : i = eid
    · subst hie
      simp only [transferSucc, upd_apply, if_pos rfl]
      exact chainOk_append (hI.chain i hex) rfl
    · have hex3 : (s.evidences i).exists_ = true := by
        simpa [transferSucc, upd_apply, hie] using hex2
      simpa [transferSucc, upd_apply, hie] using hI.chain i hex3
  · intro i
    by_cases hie : i = eid
    · subst hie
      simp [transferSucc, upd_apply, List.length_append]
      omega
    · simpa [transferSucc, upd_apply, hie] using hI.hist_cap i
  · intro i
    simpa [transferSucc] using hI.files_cap i

theorem inv_register {s s' : State} {caller : Addr} {now : Nat}
    {fh : Nat} {cid d ca : String}
    (hI : Inv s) (h : register_evidence s caller now fh cid d ca = .ok s') : Inv s' := by
  obtain ⟨-, -, -, -, -, -, hof, hlen, hs⟩ := register_ok_elim h
  subst hs
  have hemp : s.custody_history (s.evidence_counter + 1) = [] :=
    hI.fresh_hist _ (by omega)
  constructor
  · have := hI.counter_le
    simp only [regSucc]
    omega
  · intro i hi
    simp only [regSucc] at hi ⊢
    by_cases hie : i = s.evidence_counter + 1
    · omega
    · simpa [upd_apply, hie] using hI.fresh_ev i (by omega)
  · intro i hi
    simp only [regSucc] at hi ⊢
    by_cases hie : i = s.evidence_counter + 1
    · omega
    · simpa [upd_apply, hie] using hI.fresh_hist i (by omega)
  · intro i hex2
    by_cases hie : i = s.evidence_counter + 1
    · subst hie
      simp only [regSucc, upd_apply, if_pos rfl]
      rw [hemp]
      exact ⟨by simp, rfl, rfl, rfl⟩
    · have hex3 : (s.evidences i).exists_ = true := by
        simpa [regSucc, upd_apply, hie] using hex2
      simpa [regSucc, upd_apply, hie] using hI.chain i hex3
  · intro i
    by_cases hie : i = s.evidence_counter + 1
    · subst hie
      simp [regSucc, upd_apply, hemp]
    · simpa [regSucc, upd_apply, hie] using hI.hist_cap i
  · intro i
    simpa [regSucc] using hI.files_cap i

theorem inv_exec (s : State) (o : Op) (now : Nat) (hI : Inv s) : Inv (exec s o now) := by
  cases o with
  | register c fh cid d ca =>
    simp only [exec, step]
    cases hstep : register_evidence s c now fh cid d ca with
    | error e => exact hI
    | ok s' => exact inv_register hI hstep
  | transfer c eid nc r =>
    simp only [exec, step]
    cases hstep : transfer_custody s c now eid nc r with
    | error e => exact hI
    | ok s' => exact inv_transfer hI hstep
  | setStat c eid ns =>
    simp only [exec, step]
    cases hstep : set_status s c eid ns with
    | error e => exact hI
    | ok s' => exact inv_setStat hI hstep
  | addFile c eid fh cid ft =>
    simp only [exec, step]
    cases hstep : add_file_to_evidence s c now eid fh cid ft with
    | error e => exact hI
    | ok s' => exact inv_addFile hI hstep
  | grant c a role =>
    simp only [exec, step]
    cases hstep : grant_role s c a role with
    | error e => exact hI
    | ok s' => exact inv_grant hI hstep
  | revoke c a role =>
    simp only [exec, step]
    cases hstep : revoke_role s c a role with
    | error e => exact hI
    | ok s' => exact inv_revoke hI hstep

theorem reachable_inv {s : State} (h : Reachable s) : Inv s := by
  induction h with
  | init d => exact inv_init d
  | step o now _ ih => exact inv_exec _ o now ih

/-! ### Frame lemmas for single steps -/

theorem frozenEq_refl (a : Evidence) : frozenEq a a :=
  ⟨rfl, rfl, rfl, rfl, rfl, rfl, rfl⟩

theorem frozenEq_trans {a b c : Evidence} (h1 : frozenEq a b) (h2 : frozenEq b c) :
    frozenEq a c := by
  obtain ⟨a1, a2, a3, a4, a5, a6, a7⟩ := h1
  obtain ⟨b1, b2, b3, b4, b5, b6, b7⟩ := h2
  exact ⟨a1.trans b1, a2.trans b2, a3.trans b3, a4.trans b4,
    a5.trans b5, a6.trans b6, a7.trans b7⟩

theorem frozen_step {s : State} (hI : Inv s) (o : Op) (now : Nat) (i : Nat)
    (hex : (s.evidences i).exists_ = true) :
    ((exec s o now).evidences i).exists_ = true ∧
    frozenEq ((exec s o now).evidences i) (s.evidences i) := by
  have hle := existing_le_counter hI hex
  cases o with
  | register c fh cid d ca =>
    simp only [exec, step]
    cases hstep : register_evidence s c now fh cid d ca with
    | error e => exact ⟨hex, frozenEq_refl _⟩
    | ok s2 =>
      obtain ⟨-, -, -, -, -, -, -, -, hs⟩ := register_ok_elim hstep
      subst hs
      have hne : i ≠ s.evidence_counter + 1 := by omega
      simp only [regSucc, upd_apply, if_neg hne]
      exact ⟨hex, frozenEq_refl _⟩
  | transfer c eid nc r =>
    simp only [exec, step]
    cases hstep : transfer_custody s c now eid nc r with
    | error e => exact ⟨hex, frozenEq_refl _⟩
    | ok s2 =>
      obtain ⟨-, -, -, -, -, -, -, hs⟩ := transfer_ok_elim hstep
      subst hs
      by_cases hie : i = eid
      · subst hie
        simp only [transferSucc, upd_apply, if_pos rfl]
        exact ⟨hex, rfl, rfl, rfl, rfl, rfl, rfl, rfl⟩
      · simp only [transferSucc, upd_apply, if_neg hie]
        exact ⟨hex, frozenEq_refl _⟩
  | setStat c eid ns =>
    simp only [exec, step]
    cases hstep : set_status s c eid ns with
    | error e => exact ⟨hex, frozenEq_refl _⟩
    | ok s2 =>
      obtain ⟨-, -, -, -, hs⟩ := set_status_ok_elim hstep
      subst hs
      by_cases hie : i = eid
      · subst hie
        simp only [upd_apply, if_pos rfl]
        exact ⟨hex, rfl, rfl, rfl, rfl, rfl, rfl, rfl⟩
      · simp only [upd_apply, if_neg hie]
        exact ⟨hex, frozenEq_refl _⟩
  | addFile c eid fh cid ft =>
    simp only [exec, step]
    cases hstep : add_file_to_evidence s c now eid fh cid ft with
    | error e => exact ⟨hex, frozenEq_refl _⟩
    | ok s2 =>
      obtain ⟨-, -, -, -, -, -, hs⟩ := add_file_ok_elim hstep
      subst hs
      exact ⟨hex, frozenEq_refl _⟩
  | grant c a role =>
    simp only [exec, step]
    cases hstep : grant_role s c a role with
    | error e => exact ⟨hex, frozenEq_refl _⟩
    | ok s2 =>
      obtain ⟨-, -, -, hs⟩ := grant_role_ok_elim hstep
      subst hs
      exact ⟨hex, frozenEq_refl _⟩
  | revoke c a role =>
    simp only [exec, step]
    cases hstep : revoke_role s c a role with
    | error e => exact ⟨hex, frozenEq_refl _⟩
    | ok s2 =>
      obtain ⟨-, -, -, hs⟩ := revoke_role_ok_elim hstep
      subst hs
      exact ⟨hex, frozenEq_refl _⟩

theorem custodian_step {s : State} (hI : Inv s) (o : Op) (now : Nat) (i : Nat)
    (hex : (s.evidences i).exists_ = true)
    (hno : ∀ c nc r, o ≠ Op.transfer c i nc r) :
    ((exec s o now).evidences i).current_custodian = (s.evidences i).current_custodian := by
  have hle := existing_le_counter hI hex
  cases o with
  | register c fh cid d ca =>
    simp only [exec, step]
    cases hstep : register_evidence s c now fh cid d ca with
    | error e => rfl
    | ok s2 =>
      obtain ⟨-, -, -, -, -, -, -, -, hs⟩ := register_ok_elim hstep
      subst hs
      have hne : i ≠ s.evidence_counter + 1 := by omega
      simp [regSucc, upd_apply, if_neg hne]
  | transfer c eid nc r =>
    simp only [exec, step]
    cases hstep : transfer_custody s c now eid nc r with
    | error e => rfl
    | ok s2 =>
      obtain ⟨-, -, -, -, -, -, -, hs⟩ := transfer_ok_elim hstep
      subst hs
      have hne : i ≠ eid := fun he => hno c nc r (by rw [he])
      simp [transferSucc, upd_apply, if_neg hne]
  | setStat c eid ns =>
    simp only [exec, step]
    cases hstep : set_status s c eid ns with
    | error e => rfl
    | ok s2 =>
      obtain ⟨-, -, -, -, hs⟩ := set_status_ok_elim hstep
      subst hs
      by_cases hie : i = eid
      · subst hie; simp [upd_apply]
      · simp [upd_apply, if_neg hie]
  | addFile c eid fh cid ft =>
    simp only [exec, step]
    cases hstep : add_file_to_evidence s c now eid fh cid ft with
    | error e => rfl
    | ok s2 =>
      obtain ⟨-, -, -, -, -, -, hs⟩ := add_file_ok_elim hstep
      subst hs; rfl
  | grant c a role =>
    simp only [exec, step]
    cases hstep : grant_role s c a role with
    | error e => rfl
    | ok s2 =>
      obtain ⟨-, -, -, hs⟩ := grant_role_ok_elim hstep
      subst hs; rfl
  | revoke c a role =>
    simp only [exec, step]
    cases hstep : revoke_role s c a role with
    | error e => rfl
    | ok s2 =>
      obtain ⟨-, -, -, hs⟩ := revoke_role_ok_elim hstep
      subst hs; rfl

theorem status_step {s : State} (hI : Inv s) (o : Op) (now : Nat) (i : Nat)
    (hex : (s.evidences i).exists_ = true)
    (hno : ∀ c ns, o ≠ Op.setStat c i ns) :
    ((exec s o now).evidences i).status = (s.evidences i).status := by
  have hle := existing_le_counter hI hex
  cases o with
  | register c fh cid d ca =>
    simp only [exec, step]
    cases hstep : register_evidence s c now fh cid d ca with
    | error e => rfl
    | ok s2 =>
      obtain ⟨-, -, -, -, -, -, -, -, hs⟩ := register_ok_elim hstep
      subst hs
      have hne : i ≠ s.evidence_counter + 1 := by omega
      simp [regSucc, upd_apply, if_neg hne]
  | transfer c eid nc r =>
    simp only [exec, step]
    cases hstep : transfer_custody s c now eid nc r with
    | error e => rfl
    | ok s2 =>
      obtain ⟨-, -, -, -, -, -, -, hs⟩ := transfer_ok_elim hstep
      subst hs
      by_cases hie : i = eid
      · subst hie; simp [transferSucc, upd_apply]
      · simp [transferSucc, upd_apply, if_neg hie]
  | setStat c eid ns =>
    simp only [exec, step]
    cases hstep : set_status s c eid ns with
    | error e => rfl
    | ok s2 =>
      obtain ⟨-, -, -, -, hs⟩ := set_status_ok_elim hstep
      subst hs
      have hne : i ≠ eid := fun he => hno c ns (by rw [he])
      simp [upd_apply, if_neg hne]
  | addFile c eid fh cid ft =>
    simp only [exec, step]
    cases hstep : add_file_to_evidence s c now eid fh cid ft with
    | error e => rfl
    | ok s2 =>
      obtain ⟨-, -, -, -, -, -, hs⟩ := add_file_ok_elim hstep
      subst hs; rfl
  | grant c a role =>
    simp only [exec, step]
    cases hstep : grant_role s c a role with
    | error e => rfl
    | ok s2 =>
      obtain ⟨-, -, -, hs⟩ := grant_role_ok_elim hstep
      subst hs; rfl
  | revoke c a role =>
    simp only [exec, step]
    cases hstep : revoke_role s c a role with
    | error e => rfl
    | ok s2 =>
      obtain ⟨-, -, -, hs⟩ := revoke_role_ok_elim hstep
      subst hs; rfl

theorem status_change_allowed {s : State} (hI : Inv s) (o : Op) (now : Nat) (i : Nat)
    (hex : (s.evidences i).exists_ = true)
    (hne : ((exec s o now).evidences i).status ≠ (s.evidences i).status) :
    allowed_transition (s.evidences i).status ((exec s o now).evidences i).status = true := by
  cases o with
  | setStat c eid ns =>
    by_cases hie : i = eid
    · subst hie
      simp only [exec, step] at hne ⊢
      cases hstep : set_status s c i ns with
      | error e => rw [hstep] at hne; exact absurd rfl hne
      | ok s2 =>
        rw [hstep] at hne
        obtain ⟨-, -, -, hall, hs⟩ := set_status_ok_elim hstep
        subst hs
        simpa [upd_apply] using hall
    · exact absurd (status_step hI _ now i hex
        (fun c2 ns2 he => hie (by cases he; rfl))) hne
  | register c fh cid d ca =>
    exact absurd (status_step hI _ now i hex (fun _ _ h => Op.noConfusion h)) hne
  | transfer c eid nc r =>
    exact absurd (status_step hI _ now i hex (fun _ _ h => Op.noConfusion h)) hne
  | addFile c eid fh cid ft =>
    exact absurd (status_step hI _ now i hex (fun _ _ h => Op.noConfusion h)) hne
  | grant c a role =>
    exact absurd (status_step hI _ now i hex (fun _ _ h => Op.noConfusion h)) hne
  | revoke c a role =>
    exact absurd (status_step hI _ now i hex (fun _ _ h => Op.noConfusion h)) hne

theorem history_extends (s : State) (o : Op) (now : Nat) (i : Nat) :
    ∃ t, (exec s o now).custody_history i = s.custody_history i ++ t := by
  cases o with
  | register c fh cid d ca =>
    simp only [exec, step]
    cases hstep : register_evidence s c now fh cid d ca with
    | error e => exact ⟨[], by simp⟩
    | ok s2 =>
      obtain ⟨-, -, -, -, -, -, -, -, hs⟩ := register_ok_elim hstep
      subst hs
      by_cases hie : i = s.evidence_counter + 1
      · subst hie
        exact ⟨[(⟨0, c, now, "Initial registration"⟩ : CustodyEvent)],
          by simp [regSucc, upd_apply]⟩
      · exact ⟨[], by simp [regSucc, upd_apply, if_neg hie]⟩
  | transfer c eid nc r =>
    simp only [exec, step]
    cases hstep : transfer_custody s c now eid nc r with
    | error e => exact ⟨[], by simp⟩
    | ok s2 =>
      obtain ⟨-, -, -, -, -, -, -, hs⟩ := transfer_ok_elim hstep
      subst hs
      by_cases hie : i = eid
      · subst hie
        exact ⟨[(⟨(s.evidences i).current_custodian, nc, now, r⟩ : CustodyEvent)],
          by simp [transferSucc, upd_apply]⟩
      · exact ⟨[], by simp [transferSucc, upd_apply, if_neg hie]⟩
  | setStat c eid ns =>
    simp only [exec, step]
    cases hstep : set_status s c eid ns with
    | error e => exact ⟨[], by simp⟩
    | ok s2 =>
      obtain ⟨-, -, -, -, hs⟩ := set_status_ok_elim hstep
      subst hs
      exact ⟨[], by simp⟩
  | addFile c eid fh cid ft =>
    simp only [exec, step]
    cases hstep : add_file_to_evidence s c now eid fh cid ft with
    | error e => exact ⟨[], by simp⟩
    | ok s2 =>
      obtain ⟨-, -, -, -, -, -, hs⟩ := add_file_ok_elim hstep
      subst hs
      exact ⟨[], by simp [addFileSucc]⟩
  | grant c a role =>
    simp only [exec, step]
    cases hstep : grant_role s c a role with
    | error e => exact ⟨[], by simp⟩
    | ok s2 =>
      obtain ⟨-, -, -, hs⟩ := grant_role_ok_elim hstep
      subst hs
      exact ⟨[], by simp⟩
  | revoke c a role =>
    simp only [exec, step]
    cases hstep : revoke_role s c a role with
    | error e => exact ⟨[], by simp⟩
    | ok s2 =>
      obtain ⟨-, -, -, hs⟩ := revoke_role_ok_elim hstep
      subst hs
      exact ⟨[], by simp⟩

theorem hashes_mono (s : State) (o : Op) (now : Nat) (hsh : Nat)
    (h : s.registered_hashes hsh = true) :
    (exec s o now).registered_hashes hsh = true := by
  cases o with
  | register c fh cid d ca =>
    simp only [exec, step]
    cases hstep : register_evidence s c now fh cid d ca with
    | error e => exact h
    | ok s2 =>
      obtain ⟨-, -, -, -, -, -, -, -, hs⟩ := register_ok_elim hstep
      subst hs
      by_cases hie : hsh = fh
      · simp [regSucc, upd_apply, hie]
      · simpa [regSucc, upd_apply, hie] using h
  | transfer c eid nc r =>
    simp only [exec, step]
    cases hstep : transfer_custody s c now eid nc r with
    | error e => exact h
    | ok s2 =>
      obtain ⟨-, -, -, -, -, -, -, hs⟩ := transfer_ok_elim hstep
      subst hs; exact h
  | setStat c eid ns =>
    simp only [exec, step]
    cases hstep : set_status s c eid ns with
    | error e => exact h
    | ok s2 =>
      obtain ⟨-, -, -, -, hs⟩ := set_status_ok_elim hstep
      subst hs; exact h
  | addFile c eid fh cid ft =>
    simp only [exec, step]
    cases hstep : add_file_to_evidence s c now eid fh cid ft with
    | error e => exact h
    | ok s2 =>
      obtain ⟨-, -, -, -, -, -, hs⟩ := add_file_ok_elim hstep
      subst hs; exact h
  | grant c a role =>
    simp only [exec, step]
    cases hstep : grant_role s c a role with
    | error e => exact h
    | ok s2 =>
      obtain ⟨-, -, -, hs⟩ := grant_role_ok_elim hstep
      subst hs; exact h
  | revoke c a role =>
    simp only [exec, step]
    cases hstep : revoke_role s c a role with
    | error e => exact h
    | ok s2 =>
      obtain ⟨-, -, -, hs⟩ := revoke_role_ok_elim hstep
      subst hs; exact h

/-! ### Multi-step consequences -/

theorem execAll_reachable {s : State} (h : Reachable s) (ops : List (Op × Nat)) :
    Reachable (execAll s ops) := by
  induction ops generalizing s with
  | nil => exact h
  | cons p rest ih =>
    obtain ⟨o, t⟩ := p
    exact ih (Reachable.step o t h)

theorem execAll_frozen {s : State} (hI : Inv s) (i : Nat)
    (hex : (s.evidences i).exists_ = true) (ops : List (Op × Nat)) :
    ((execAll s ops).evidences i).exists_ = true ∧
    frozenEq ((execAll s ops).evidences i) (s.evidences i) := by
  induction ops generalizing s with
  | nil => exact ⟨hex, frozenEq_refl _⟩
  | cons p rest ih =>
    obtain ⟨o, t⟩ := p
    obtain ⟨hex2, hfr⟩ := frozen_step hI o t i hex
    obtain ⟨hex3, hfr2⟩ := ih (inv_exec s o t hI) hex2
    exact ⟨hex3, frozenEq_trans hfr2 hfr⟩

theorem execAll_status_terminal {s : State} (hI : Inv s) (i : Nat)
    (hex : (s.evidences i).exists_ = true)
    (hterm : (s.evidences i).status = Status.Archived ∨
      (s.evidences i).status = Status.Invalidated)
    (ops : List (Op × Nat)) :
    ((execAll s ops).evidences i).status = (s.evidences i).status := by
  induction ops generalizing s with
  | nil => rfl
  | cons p rest ih =>
    obtain ⟨o, t⟩ := p
    have hstep : ((exec s o t).evidences i).status = (s.evidences i).status := by
      by_contra hne
      have hall := status_change_allowed hI o t i hex hne
      rcases hterm with h | h <;> rw [h] at hall <;>
        cases hst : ((exec s o t).evidences i).status <;>
          rw [hst] at hall <;> simp [allowed_transition] at hall
    have hex2 := (frozen_step hI o t i hex).1
    have hrest := ih (inv_exec s o t hI) hex2 (by rw [hstep]; exact hterm)
    show ((execAll (exec s o t) rest).evidences i).status = (s.evidences i).status
    rw [hrest, hstep]

/-! ### Generic failure and monotonicity lemmas -/

theorem exec_of_fail {s : State} {o : Op} {now : Nat}
    (h : okB (step s o now) = false) : exec s o now = s := by
  unfold exec
  cases hs : step s o now with
  | ok s2 => rw [hs] at h; simp [okB] at h
  | error e => rfl

theorem counter_mono (s : State) (o : Op) (now : Nat) :
    s.evidence_counter ≤ (exec s o now).evidence_counter := by
  cases o with
  | register c fh cid d ca =>
    simp only [exec, step]
    cases hstep : register_evidence s c now fh cid d ca with
    | error e => exact le_refl _
    | ok s2 =>
      obtain ⟨-, -, -, -, -, -, -, -, hs⟩ := register_ok_elim hstep
      subst hs
      exact Nat.le_succ _
  | transfer c eid nc r =>
    simp only [exec, step]
    cases hstep : transfer_custody s c now eid nc r with
    | error e => exact le_refl _
    | ok s2 =>
      obtain ⟨-, -, -, -, -, -, -, hs⟩ := transfer_ok_elim hstep
      subst hs
      exact le_refl _
  | setStat c eid ns =>
    simp only [exec, step]
    cases hstep : set_status s c eid ns with
    | error e => exact le_refl _
    | ok s2 =>
      obtain ⟨-, -, -, -, hs⟩ := set_status_ok_elim hstep
      subst hs
      exact le_refl _
  | addFile c eid fh cid ft =>
    simp only [exec, step]
    cases hstep : add_file_to_evidence s c now eid fh cid ft with
    | error e => exact le_refl _
    | ok s2 =>
      obtain ⟨-, -, -, -, -, -, hs⟩ := add_file_ok_elim hstep
      subst hs
      exact le_refl _
  | grant c a role =>
    simp only [exec, step]
    cases hstep : grant_role s c a role with
    | error e => exact le_refl _
    | ok s2 =>
      obtain ⟨-, -, -, hs⟩ := grant_role_ok_elim hstep
      subst hs
      exact le_refl _
  | revoke c a role =>
    simp only [exec, step]
    cases hstep : revoke_role s c a role with
    | error e => exact le_refl _
    | ok s2 =>
      obtain ⟨-, -, -, hs⟩ := revoke_role_ok_elim hstep
      subst hs
      exact le_refl _

/-! ### Claim theorems -/

/-- C1 (amended): `grant_role(principal, role)` and
`revoke_role(principal, role)` succeed exactly when the caller is the
contract's `admin` principal (the deployment-time admin address — not
merely a holder of the ADMIN role bit), `role` is exactly one of the
four defined roles, and `principal` is not the null principal; a caller
other than the admin fails with AuthorizationError, a null principal or
invalid role fails with ValidationError; on success grant ORs the role
bit into the principal's mask and revoke ANDs the (256-bit) complement
of the role bit, leaving every other principal's mask unchanged. -/
theorem C1_role_mutation_admin_gated (s : State) (caller account : Addr) (role : Nat) :
    (okB (grant_role s caller account role) = true ↔
      caller = s.admin ∧ account ≠ 0 ∧ validRole role = true) ∧
    (okB (revoke_role s caller account role) = true ↔
      caller = s.admin ∧ account ≠ 0 ∧ validRole role = true) ∧
    (caller ≠ s.admin →
      errOf (grant_role s caller account role) = some Err.AuthorizationError ∧
      errOf (revoke_role s caller account role) = some Err.AuthorizationError) ∧
    (caller = s.admin → account = 0 ∨ validRole role = false →
      errOf (grant_role s caller account role) = some Err.ValidationError ∧
      errOf (revoke_role s caller account role) = some Err.ValidationError) ∧
    (∀ s', grant_role s caller account role = .ok s' →
      s'.roles account = s.roles account ||| role ∧
      ∀ a, a ≠ account → s'.roles a = s.roles a) ∧
    (∀ s', revoke_role s caller account role = .ok s' →
      s'.roles account = s.roles account &&& (UINT256_MAX ^^^ role) ∧
      ∀ a, a ≠ account → s'.roles a = s.roles a) := by
  refine ⟨grant_role_ok_iff s caller account role,
    revoke_role_ok_iff s caller account role, ?_, ?_, ?_, ?_⟩
  · intro hne
    constructor <;> simp [grant_role, revoke_role, errOf, hne]
  · intro hadm hbad
    by_cases h0 : account = 0
    · constructor <;> simp [grant_role, revoke_role, errOf, hadm, h0]
    · rcases hbad with h0x | hrv
      · exact absurd h0x h0
      · constructor <;> simp [grant_role, revoke_role, errOf, hadm, h0, hrv]
  · intro s' h
    obtain ⟨-, -, -, hs⟩ := grant_role_ok_elim h
    subst hs
    exact ⟨by simp [upd_apply], fun a ha => by simp [upd_apply, ha]⟩
  · intro s' h
    obtain ⟨-, -, -, hs⟩ := revoke_role_ok_elim h
    subst hs
    exact ⟨by simp [upd_apply], fun a ha => by simp [upd_apply, ha]⟩

/-- C1 witness: in the freshly deployed state, the admin succeeds in
granting POLICE to principal 2, while the non-admin principal 2 is
rejected with AuthorizationError. -/
theorem C1_role_mutation_admin_gated_witness :
    okB (grant_role s0 1 2 ROLE_POLICE) = true ∧
    errOf (grant_role s0 2 2 ROLE_POLICE) = some Err.AuthorizationError := by
  refine ⟨(C1_role_mutation_admin_gated s0 1 2 ROLE_POLICE).1.mpr (by decide), ?_⟩
  exact ((C1_role_mutation_admin_gated s0 2 2 ROLE_POLICE).2.2.1 (by decide)).1

/-- C1 counterexample: in the reachable state `s2` principal 2 holds the
ADMIN role bit, principal 3 is non-null and POLICE is a valid role, yet
`grant_role` and `revoke_role` called by 2 fail with AuthorizationError:
role mutation is gated on the deployment-time `admin` address, not on
holding the ADMIN role. -/
theorem C1_claim_counterexample :
    has_role s2 2 ROLE_ADMIN = true ∧ (3 : Addr) ≠ 0 ∧ validRole ROLE_POLICE = true ∧
    errOf (grant_role s2 2 3 ROLE_POLICE) = some Err.AuthorizationError ∧
    errOf (revoke_role s2 2 3 ROLE_POLICE) = some Err.AuthorizationError := by
  decide

/-- C2: once an evidence id exists, its `id`, content digest,
`ipfs_cid`, description, case id, creator and creation timestamp never
change under any sequence of operations (and the record keeps
existing); the current custodian changes only through `transfer_custody`
on that id, and the status changes only through `set_status` on that
id. -/
theorem C2_frozen_fields_immutable {s : State} (hs : Reachable s) (i : Nat)
    (hex : (s.evidences i).exists_ = true) :
    (∀ ops : List (Op × Nat),
      ((execAll s ops).evidences i).exists_ = true ∧
      frozenEq ((execAll s ops).evidences i) (s.evidences i)) ∧
    (∀ o now, (∀ c nc r, o ≠ Op.transfer c i nc r) →
      ((exec s o now).evidences i).current_custodian =
        (s.evidences i).current_custodian) ∧
    (∀ o now, (∀ c ns, o ≠ Op.setStat c i ns) →
      ((exec s o now).evidences i).status = (s.evidences i).status) := by
  have hI := reachable_inv hs
  exact ⟨execAll_frozen hI i hex,
    fun o now hno => custodian_step hI o now i hex hno,
    fun o now hno => status_step hI o now i hex hno⟩

/-- C2 witness: after registration, a status change and a role grant
leave evidence 1's description intact. -/
theorem C2_frozen_fields_immutable_witness :
    ((execAll s1 [(Op.setStat 1 1 Status.InAnalysis, 3),
        (Op.grant 1 2 ROLE_LAB, 4)]).evidences 1).description = "desc" := by
  have h := C2_frozen_fields_immutable
    (Reachable.step (Op.register 1 5 "cid" "desc" "case") 0 (Reachable.init 1)) 1 (by decide)
  exact ((h.1 [(Op.setStat 1 1 Status.InAnalysis, 3),
    (Op.grant 1 2 ROLE_LAB, 4)]).2.2.2.2.1).trans (by decide)

/-- C3: `set_status` succeeds exactly when the evidence exists, the
caller holds LAB or JUDGE, the new status differs from the current one
(an equal status fails with ValidationError), and the pair lies in the
allowed table, which consists exactly of Collected→InAnalysis,
Collected→Invalidated, InAnalysis→Archived, InAnalysis→Invalidated; an
attempt to leave Archived or Invalidated fails with
InvalidTransitionError; along any run, every status change of an
existing evidence follows the table, and a terminal status is never left
by any sequence of operations. -/
theorem C3_status_fsm (s : State) :
    (∀ a b : Status, allowed_transition a b = true ↔
      ((a = Status.Collected ∧ b = Status.InAnalysis) ∨
       (a = Status.Collected ∧ b = Status.Invalidated) ∨
       (a = Status.InAnalysis ∧ b = Status.Archived) ∨
       (a = Status.InAnalysis ∧ b = Status.Invalidated))) ∧
    (∀ caller eid ns,
      (okB (set_status s caller eid ns) = true ↔
        (s.evidences eid).exists_ = true ∧
        s.roles caller &&& (ROLE_LAB ||| ROLE_JUDGE) ≠ 0 ∧
        ns ≠ (s.evidences eid).status ∧
        allowed_transition (s.evidences eid).status ns = true) ∧
      ((s.evidences eid).exists_ = true →
        s.roles caller &&& (ROLE_LAB ||| ROLE_JUDGE) ≠ 0 →
        ns = (s.evidences eid).status →
        errOf (set_status s caller eid ns) = some Err.ValidationError) ∧
      ((s.evidences eid).exists_ = true →
        s.roles caller &&& (ROLE_LAB ||| ROLE_JUDGE) ≠ 0 →
        ns ≠ (s.evidences eid).status →
        ((s.evidences eid).status = Status.Archived ∨
          (s.evidences eid).status = Status.Invalidated) →
        errOf (set_status s caller eid ns) = some Err.InvalidTransitionError)) ∧
    (Reachable s → ∀ i, (s.evidences i).exists_ = true →
      (∀ o now, ((exec s o now).evidences i).status ≠ (s.evidences i).status →
        allowed_transition (s.evidences i).status
          ((exec s o now).evidences i).status = true) ∧
      (((s.evidences i).status = Status.Archived ∨
          (s.evidences i).status = Status.Invalidated) →
        ∀ ops : List (Op × Nat),
          ((execAll s ops).evidences i).status = (s.evidences i).status)) := by
  refine ⟨fun a b => by cases a <;> cases b <;> simp [allowed_transition],
    fun caller eid ns => ⟨set_status_ok_iff s caller eid ns, ?_, ?_⟩, ?_⟩
  · intro hex hrole hns
    simp [set_status, errOf, hex, hrole, hns]
  · intro hex hrole hns hterm
    have hallow : allowed_transition (s.evidences eid).status ns = false := by
      rcases hterm with h | h <;> rw [h] <;> cases ns <;> simp [allowed_transition]
    simp [set_status, errOf, hex, hrole, hns, hallow]
  · intro hs i hex
    have hI := reachable_inv hs
    exact ⟨fun o now hne => status_change_allowed hI o now i hex hne,
      fun hterm ops => execAll_status_terminal hI i hex hterm ops⟩

/-- C3 witness: in `s1` the deployer (who holds LAB and JUDGE) moves
evidence 1 from Collected to InAnalysis, while re-setting Collected is
rejected with ValidationError. -/
theorem C3_status_fsm_witness :
    okB (set_status s1 1 1 Status.InAnalysis) = true ∧
    errOf (set_status s1 1 1 Status.Collected) = some Err.ValidationError := by
  have h := C3_status_fsm s1
  exact ⟨(h.2.1 1 1 Status.InAnalysis).1.mpr (by decide),
    (h.2.1 1 1 Status.Collected).2.1 (by decide) (by decide) (by decide)⟩

/-- C4: in every reachable state, every existing evidence has a
non-empty custody history whose first entry carries the null sentinel
from-principal, consecutive entries hand off custodian-to-custodian, and
the last entry's to-principal is the evidence's current custodian;
moreover no operation ever removes or reorders recorded entries — every
step only appends to each history. -/
theorem C4_custody_chain_wellformed {s : State} (hs : Reachable s) :
    (∀ i, (s.evidences i).exists_ = true →
      s.custody_history i ≠ [] ∧
      headFrom (s.custody_history i) = 0 ∧
      linkedB (s.custody_history i) = true ∧
      lastTo (s.custody_history i) = (s.evidences i).current_custodian) ∧
    (∀ o now i, ∃ t, (exec s o now).custody_history i = s.custody_history i ++ t) := by
  have hI := reachable_inv hs
  exact ⟨fun i hex => hI.chain i hex, fun o now i => history_extends s o now i⟩

/-- C4 witness: in the reachable state `s1`, evidence 1's single-entry
history starts at the null sentinel and ends at custodian 1. -/
theorem C4_custody_chain_wellformed_witness :
    headFrom (s1.custody_history 1) = 0 ∧
    lastTo (s1.custody_history 1) = (s1.evidences 1).current_custodian := by
  have h := C4_custody_chain_wellformed
    (Reachable.step (Op.register 1 5 "cid" "desc" "case") 0 (Reachable.init 1))
  exact ⟨(h.1 1 (by decide)).2.1, (h.1 1 (by decide)).2.2.2⟩

/-- C5 (amended): once a digest is registered, a second registration of
the same digest never succeeds; it fails with DuplicateError whenever
the second caller holds POLICE and the other arguments are well-formed
(a caller without POLICE or a malformed argument trips an earlier guard
and gets that guard's error instead); a failed second call leaves the
entire state — in particular the first record and the evidence counter —
unchanged; and no operation ever removes a digest from the registered
set. -/
theorem C5_duplicate_digest_rejected {s s3 : State} {c1 : Addr} {n1 : Nat}
    {fh : Nat} {cid d ca : String}
    (hreg : register_evidence s c1 n1 fh cid d ca = .ok s3) :
    (∀ c2 n2 cid2 d2 ca2,
      okB (register_evidence s3 c2 n2 fh cid2 d2 ca2) = false) ∧
    (∀ c2 n2 cid2 d2 ca2, s3.roles c2 &&& ROLE_POLICE ≠ 0 →
      d2 ≠ "" → ca2 ≠ "" → cid2 ≠ "" →
      errOf (register_evidence s3 c2 n2 fh cid2 d2 ca2) = some Err.DuplicateError) ∧
    (∀ c2 n2 cid2 d2 ca2,
      exec s3 (Op.register c2 fh cid2 d2 ca2) n2 = s3) ∧
    (∀ (t : State) o n h2, t.registered_hashes h2 = true →
      (exec t o n).registered_hashes h2 = true) := by
  obtain ⟨-, hfh, -, -, -, -, -, -, hs⟩ := register_ok_elim hreg
  have hdup : s3.registered_hashes fh = true := by
    subst hs; simp [regSucc, upd_apply]
  have hfail : ∀ c2 n2 cid2 d2 ca2,
      okB (register_evidence s3 c2 n2 fh cid2 d2 ca2) = false := by
    intro c2 n2 cid2 d2 ca2
    by_contra hok
    rw [Bool.not_eq_false] at hok
    have hconds := (register_ok_iff s3 c2 n2 fh cid2 d2 ca2).mp hok
    rw [hconds.2.2.2.2.2.1] at hdup
    exact Bool.noConfusion hdup
  refine ⟨hfail, ?_, ?_, ?_⟩
  · intro c2 n2 cid2 d2 ca2 hrole hd2 hca2 hcid2
    simp [register_evidence, errOf, hrole, hfh, hd2, hca2, hcid2, hdup]
  · intro c2 n2 cid2 d2 ca2
    exact exec_of_fail (hfail c2 n2 cid2 d2 ca2)
  · intro t o n h2 h
    exact hashes_mono t o n h2 h

/-- C5 witness: in `s1` (digest 5 registered), a second registration of
digest 5 by the POLICE-holding deployer fails with DuplicateError and
leaves the state untouched. -/
theorem C5_duplicate_digest_rejected_witness :
    errOf (register_evidence s1 1 2 5 "a" "b" "c") = some Err.DuplicateError ∧
    exec s1 (Op.register 1 5 "a" "b" "c") 2 = s1 := by
  have h := C5_duplicate_digest_rejected
    (show register_evidence s0 1 0 5 "cid" "desc" "case" = .ok s1 from rfl)
  exact ⟨h.2.1 1 2 "a" "b" "c" (by decide) (by decide) (by decide) (by decide),
    h.2.2.1 1 2 "a" "b" "c"⟩

/-- C5 counterexample: after digest 5 is registered, a second
registration of the same digest by principal 9 — who holds no POLICE
role — fails with AuthorizationError, not DuplicateError, so the error
kind of the second call is not independent of the caller. -/
theorem C5_claim_counterexample :
    s1.registered_hashes 5 = true ∧
    errOf (register_evidence s1 9 1 5 "x" "y" "z") = some Err.AuthorizationError ∧
    Err.AuthorizationError ≠ Err.DuplicateError := by
  decide

/-- C6 (amended): `transfer_custody` succeeds exactly when the evidence
exists, the caller is the evidence's current custodian, the new
custodian is non-null, distinct from the caller, and holds at least one
role, the reason is non-empty, and — additionally to the claim — the
custody history is below its capacity of 1000 entries; a non-custodian
caller fails with AuthorizationError regardless of its own role bits; on
success the call appends the custody event (old custodian, new
custodian, reason, now) and sets the current custodian. -/
theorem C6_transfer_custody_contract (s : State) (caller : Addr) (now : Nat)
    (eid : Nat) (nc : Addr) (r : String) :
    (okB (transfer_custody s caller now eid nc r) = true ↔
      (s.evidences eid).exists_ = true ∧
      (s.evidences eid).current_custodian = caller ∧
      nc ≠ 0 ∧ nc ≠ caller ∧ s.roles nc ≠ 0 ∧ r ≠ "" ∧
      (s.custody_history eid).length < 1000) ∧
    ((s.evidences eid).exists_ = true →
      (s.evidences eid).current_custodian ≠ caller →
      errOf (transfer_custody s caller now eid nc r) = some Err.AuthorizationError) ∧
    (∀ s', transfer_custody s caller now eid nc r = .ok s' →
      s'.custody_history eid = s.custody_history eid ++
        [(⟨(s.evidences eid).current_custodian, nc, now, r⟩ : CustodyEvent)] ∧
      (s'.evidences eid).current_custodian = nc) := by
  refine ⟨?_, ?_, ?_⟩
  · rw [transfer_ok_iff]; tauto
  · intro hex hnc
    simp [transfer_custody, errOf, hex, hnc]
  · intro s' h
    obtain ⟨-, -, -, -, -, -, -, hs⟩ := transfer_ok_elim h
    subst hs
    exact ⟨by simp [transferSucc, upd_apply], by simp [transferSucc, upd_apply]⟩

/-- C6 witness: in `s2` the custodian 1 transfers evidence 1 to the
enrolled principal 2, while the non-custodian 9 is rejected with
AuthorizationError. -/
theorem C6_transfer_custody_contract_witness :
    okB (transfer_custody s2 1 7 1 2 "handoff") = true ∧
    errOf (transfer_custody s2 9 7 1 2 "handoff") = some Err.AuthorizationError := by
  refine ⟨(C6_transfer_custody_contract s2 1 7 1 2 "handoff").1.mpr (by decide), ?_⟩
  exact (C6_transfer_custody_contract s2 9 7 1 2 "handoff").2.1 (by decide) (by decide)

set_option maxRecDepth 8000 in
/-- C6 counterexample: in `fullS` every condition listed by the claim
holds — evidence 1 exists, the caller is its custodian, principal 2 is a
non-null, distinct, enrolled custodian and the reason is non-empty — yet
the transfer fails (with the capacity-exceeded failure), because the
claim's success condition omits the 1000-entry history capacity. -/
theorem C6_claim_counterexample :
    (fullS.evidences 1).exists_ = true ∧
    (fullS.evidences 1).current_custodian = 1 ∧
    (2 : Addr) ≠ 0 ∧ (2 : Addr) ≠ 1 ∧ fullS.roles 2 ≠ 0 ∧ ("handoff" : String) ≠ "" ∧
    okB (transfer_custody fullS 1 0 1 2 "handoff") = false ∧
    errOf (transfer_custody fullS 1 0 1 2 "handoff") = some Err.CapacityError := by
  decide

/-- C7 (amended): a successful `register_evidence` by a POLICE-holding
caller with well-formed inputs and an unregistered digest increments the
counter and returns id = previous counter + 1 (ids are monotonically
assigned, never reused); the new evidence atomically gets status
Collected, creator = custodian = caller, the given digest, locator,
description, case id and timestamp; the digest enters the registered
set; and the sole custody-history entry is the sentinel event
(from = null, to = caller, reason = "Initial registration" — note the
capitalized reason string stored by the code). -/
theorem C7_register_effects {s s' : State} (hs : Reachable s) {caller : Addr} {now : Nat}
    {fh : Nat} {cid d ca : String}
    (h : register_evidence s caller now fh cid d ca = .ok s') :
    s'.evidence_counter = s.evidence_counter + 1 ∧
    (s'.evidences (s.evidence_counter + 1)).id = s.evidence_counter + 1 ∧
    (s'.evidences (s.evidence_counter + 1)).status = Status.Collected ∧
    (s'.evidences (s.evidence_counter + 1)).creator = caller ∧
    (s'.evidences (s.evidence_counter + 1)).current_custodian = caller ∧
    (s'.evidences (s.evidence_counter + 1)).file_hash = fh ∧
    (s'.evidences (s.evidence_counter + 1)).ipfs_cid = cid ∧
    (s'.evidences (s.evidence_counter + 1)).description = d ∧
    (s'.evidences (s.evidence_counter + 1)).case_id = ca ∧
    (s'.evidences (s.evidence_counter + 1)).created_at = now ∧
    (s'.evidences (s.evidence_counter + 1)).exists_ = true ∧
    s'.registered_hashes fh = true ∧
    s'.custody_history (s.evidence_counter + 1) =
      [(⟨0, caller, now, "Initial registration"⟩ : CustodyEvent)] ∧
    (∀ o n2, s.evidence_counter ≤ (exec s o n2).evidence_counter) := by
  have hI := reachable_inv hs
  obtain ⟨-, -, -, -, -, -, -, -, hsx⟩ := register_ok_elim h
  subst hsx
  have hemp : s.custody_history (s.evidence_counter + 1) = [] :=
    hI.fresh_hist _ (Nat.lt_succ_self _)
  refine ⟨rfl, ?_, ?_, ?_, ?_, ?_, ?_, ?_, ?_, ?_, ?_, ?_, ?_, fun o n2 => counter_mono s o n2⟩
  all_goals simp [regSucc, upd_apply, hemp]

/-- C7 witness: the concrete registration producing `s1` allocates id 1,
status Collected, and the single sentinel history entry. -/
theorem C7_register_effects_witness :
    s1.evidence_counter = 1 ∧ (s1.evidences 1).status = Status.Collected ∧
    s1.custody_history 1 = [(⟨0, 1, 0, "Initial registration"⟩ : CustodyEvent)] := by
  have h := C7_register_effects (Reachable.init 1)
    (show register_evidence s0 1 0 5 "cid" "desc" "case" = .ok s1 from rfl)
  exact ⟨h.1.trans rfl, h.2.2.1, h.2.2.2.2.2.2.2.2.2.2.2.2.1⟩

/-- C7 counterexample: the sentinel custody event stored at registration
has the reason string "Initial registration", not the claim's
"initial registration". -/
theorem C7_claim_counterexample :
    okB (register_evidence s0 1 0 5 "cid" "desc" "case") = true ∧
    (s1.custody_history 1).map CustodyEvent.reason = ["Initial registration"] ∧
    ("Initial registration" : String) ≠ "initial registration" := by
  decide

/-- C8: every mutating operation commits exactly when its precondition
conjunction holds, and a rejected call leaves the entire storage —
evidence table, counter, digest set, roles, histories and file lists —
exactly unchanged (the revert discards every write). -/
theorem C8_rejected_calls_leave_state_unchanged (s : State) (o : Op) (now : Nat) :
    (okB (step s o now) = true ↔ Preconds s o) ∧
    (okB (step s o now) = false → exec s o now = s) := by
  refine ⟨?_, exec_of_fail⟩
  cases o with
  | register c fh cid d ca => exact register_ok_iff s c now fh cid d ca
  | transfer c eid nc r => exact transfer_ok_iff s c now eid nc r
  | setStat c eid ns => exact set_status_ok_iff s c eid ns
  | addFile c eid fh cid ft => exact add_file_ok_iff s c now eid fh cid ft
  | grant c a role => exact grant_role_ok_iff s c a role
  | revoke c a role => exact revoke_role_ok_iff s c a role

/-- C8 witness: a grant attempted by the non-admin principal 2 is
rejected and the deployment state is returned bit-for-bit. -/
theorem C8_rejected_calls_leave_state_unchanged_witness :
    exec s0 (Op.grant 2 3 ROLE_ADMIN) 0 = s0 :=
  (C8_rejected_calls_leave_state_unchanged s0 (Op.grant 2 3 ROLE_ADMIN) 0).2 (by decide)

/-- C9: custody histories never exceed 1000 entries and file lists never
exceed 100 in any reachable state; an append against a full list fails
closed — the transfer (resp. file addition) is rejected, with
CapacityError once the other guards pass, and the stored list is left
exactly as it was, neither truncated nor wrapped. -/
theorem C9_capacity_bounds (s : State) :
    (Reachable s → ∀ i, (s.custody_history i).length ≤ 1000 ∧
      (s.evidence_files i).length ≤ 100) ∧
    (∀ caller now eid nc r, 1000 ≤ (s.custody_history eid).length →
      okB (transfer_custody s caller now eid nc r) = false ∧
      (exec s (Op.transfer caller eid nc r) now).custody_history eid =
        s.custody_history eid) ∧
    (∀ caller now eid nc r, (s.evidences eid).exists_ = true →
      (s.evidences eid).current_custodian = caller → nc ≠ 0 → nc ≠ caller →
      s.roles nc ≠ 0 → r ≠ "" → 1000 ≤ (s.custody_history eid).length →
      errOf (transfer_custody s caller now eid nc r) = some Err.CapacityError) ∧
    (∀ caller now eid fh cid ft, 100 ≤ (s.evidence_files eid).length →
      okB (add_file_to_evidence s caller now eid fh cid ft) = false ∧
      (exec s (Op.addFile caller eid fh cid ft) now).evidence_files eid =
        s.evidence_files eid) ∧
    (∀ caller now eid fh cid ft, (s.evidences eid).exists_ = true →
      s.roles caller &&& ROLE_LAB ≠ 0 → fh ≠ 0 → cid ≠ "" → ft ≠ "" →
      100 ≤ (s.evidence_files eid).length →
      errOf (add_file_to_evidence s caller now eid fh cid ft) = some Err.CapacityError) := by
  refine ⟨?_, ?_, ?_, ?_, ?_⟩
  · intro hs i
    have hI := reachable_inv hs
    exact ⟨hI.hist_cap i, hI.files_cap i⟩
  · intro caller now eid nc r hlen
    have hfail : okB (transfer_custody s caller now eid nc r) = false := by
      by_contra hok
      rw [Bool.not_eq_false] at hok
      have hconds := (transfer_ok_iff s caller now eid nc r).mp hok
      exact absurd hconds.2.2.2.2.2.2 (by omega)
    refine ⟨hfail, ?_⟩
    rw [exec_of_fail (show okB (step s (Op.transfer caller eid nc r) now) = false from hfail)]
  · intro caller now eid nc r hex hcust hnc0 hnccaller hroles hr hlen
    simp [transfer_custody, errOf, hex, hcust, hnc0, hnccaller, hroles, hr, hlen]
  · intro caller now eid fh cid ft hlen
    have hfail : okB (add_file_to_evidence s caller now eid fh cid ft) = false := by
      by_contra hok
      rw [Bool.not_eq_false] at hok
      have hconds := (add_file_ok_iff s caller now eid fh cid ft).mp hok
      exact absurd hconds.2.2.2.2.2 (by omega)
    refine ⟨hfail, ?_⟩
    rw [exec_of_fail (show okB (step s (Op.addFile caller eid fh cid ft) now) = false from hfail)]
  · intro caller now eid fh cid ft hex hrole hfh hcid hft hlen
    simp [add_file_to_evidence, errOf, hex, hrole, hfh, hcid, hft, hlen]

set_option maxRecDepth 8000 in
/-- C9 witness: the hand-crafted full history rejects a further
transfer, and the capacity invariant holds at deployment. -/
theorem C9_capacity_bounds_witness :
    okB (transfer_custody fullS 3 0 1 2 "y") = false ∧
    ((initState 1).custody_history 0).length ≤ 1000 := by
  refine ⟨((C9_capacity_bounds fullS).2.1 3 0 1 2 "y" (by decide)).1, ?_⟩
  exact ((C9_capacity_bounds (initState 1)).1 (Reachable.init 1) 0).1

/-- C10: `transfer_custody` never consults the lifecycle status —
overriding the status of the target evidence (in particular to the
terminal Archived or Invalidated) changes neither the outcome nor the
error of a transfer, and for terminal-status evidence a transfer by the
current custodian to a valid, enrolled, distinct custodian with a
non-empty reason succeeds, appending the custody event and updating the
custodian exactly as for Collected or InAnalysis evidence. -/
theorem C10_transfer_ignores_status (s : State) (caller : Addr) (now : Nat)
    (eid : Nat) (nc : Addr) (r : String) :
    (∀ st : Status,
      errOf (transfer_custody (withStatus s eid st) caller now eid nc r) =
        errOf (transfer_custody s caller now eid nc r) ∧
      okB (transfer_custody (withStatus s eid st) caller now eid nc r) =
        okB (transfer_custody s caller now eid nc r)) ∧
    (((s.evidences eid).status = Status.Archived ∨
        (s.evidences eid).status = Status.Invalidated) →
      (s.evidences eid).exists_ = true →
      (s.evidences eid).current_custodian = caller →
      nc ≠ 0 → nc ≠ caller → s.roles nc ≠ 0 → r ≠ "" →
      (s.custody_history eid).length < 1000 →
      okB (transfer_custody s caller now eid nc r) = true ∧
      ∀ s', transfer_custody s caller now eid nc r = .ok s' →
        s'.custody_history eid = s.custody_history eid ++
          [(⟨caller, nc, now, r⟩ : CustodyEvent)] ∧
        (s'.evidences eid).current_custodian = nc) := by
  constructor
  · intro st
    refine ⟨?_, ?_⟩ <;>
      simp only [transfer_custody, withStatus, upd_apply, eq_self_iff_true, if_true] <;>
      split_ifs <;> simp_all [errOf, okB]
  · intro hterm hex hcust hnc0 hnccaller hroles hr hlen
    refine ⟨(transfer_ok_iff s caller now eid nc r).mpr
      ⟨hex, hcust, hnc0, hr, hroles, hnccaller, hlen⟩, ?_⟩
    intro s' h
    obtain ⟨-, -, -, -, -, -, -, hs⟩ := transfer_ok_elim h
    subst hs
    exact ⟨by simp [transferSucc, upd_apply, hcust], by simp [transferSucc, upd_apply]⟩

/-- C10 witness: with evidence 1's status overridden to the terminal
Archived in the reachable `s2`, the custodian's transfer to the enrolled
principal 2 still succeeds. -/
theorem C10_transfer_ignores_status_witness :
    okB (transfer_custody (withStatus s2 1 Status.Archived) 1 7 1 2 "handoff") = true := by
  exact ((C10_transfer_ignores_status (withStatus s2 1 Status.Archived) 1 7 1 2 "handoff").2
    (by decide) (by decide) (by decide) (by decide) (by decide) (by decide)
    (by decide) (by decide)).1

end DigitalEvidence
